import Mathlib

/-!
Shallow embedding of the factorio-server instance lifecycle engine
(`src/version.rs`, `src/instance.rs`, `src/cache.rs`, `src/data.rs`,
`src/credentials.rs`) together with theorems settling the specification
claims about it.  Strings handled character-by-character by the Rust code
(splitting, suffix tests) are modelled as `List Char`; machine integers
(`u16`, `u8`, pids) are modelled as `Nat` with explicit bounds where the
Rust code checks them.  Filesystem and channel effects are modelled by
explicit state passing; external outcomes (HTTP, process table) are
parameters of the functions that consume them.
-/

namespace FactorioServer

/-! ## Error model (`src/error.rs` plus the variants used by the newer
modules).  Message payload strings are elided: the code only ever matches
on the variant, never on the text. -/

inductive IoErrorKind where
  | notFound
  | notADirectory
  | otherIo
deriving DecidableEq

inductive ServerError where
  | notAllowed
  | ioError (k : IoErrorKind)
  | alreadyRunningError
  | inFlightError
  | downloadError
  | invalidVersionFormat
  | parseIntError
  | tokioRecvError
  | reqwestError
  | rconError
deriving DecidableEq

/-! ## Version (`src/version.rs`)

`Version` is a tuple struct over `[u16; 3]`; parsing splits the string on
`'.'`, requires exactly three parts and parses each with
`str::parse::<u16>`; `Display` renders `"{}.{}.{}"`. -/

structure Version where
  major : Nat
  minor : Nat
  patch : Nat
deriving DecidableEq

/-- Rust `str::split('.')` on a character list: every maximal run between
dots is a part, empty parts included (`"".split('.')` yields one empty
part, `"a.".split('.')` yields `["a", ""]`). -/
def splitOnDot : List Char → List (List Char)
  | [] => [[]]
  | c :: rest =>
    match splitOnDot rest with
    | [] => [[]]
    | p :: ps => if c = '.' then [] :: p :: ps else (c :: p) :: ps

/-- Numeric value of a digit run, as accumulated by `u16::from_str`. -/
def digitsToNat (t : List Char) : Nat :=
  t.foldl (fun acc c => acc * 10 + (c.toNat - 48)) 0

/-- Rust `u16::from_str` accepts an optional leading `'+'`. -/
def stripPlus (s : List Char) : List Char :=
  match s with
  | [] => []
  | c :: r => if c = '+' then r else c :: r

/-- Rust `str::parse::<u16>`: optional `'+'`, then a non-empty run of
ASCII digits whose value fits in 16 bits; anything else is a parse
error (`None`). -/
def parseU16 (s : List Char) : Option Nat :=
  let t := stripPlus s
  if t = [] then none
  else if t.all (fun c => c.isDigit) then
    if digitsToNat t < 65536 then some (digitsToNat t) else none
  else none

/-- Model of `Version::from_str` (`src/version.rs:17-33`): split on `'.'`, demand
exactly three parts, parse each part as `u16`. -/
def version_from_str (s : List Char) : Except ServerError Version :=
  match splitOnDot s with
  | [p0, p1, p2] =>
    match parseU16 p0, parseU16 p1, parseU16 p2 with
    | some a, some b, some c => .ok ⟨a, b, c⟩
    | _, _, _ => .error .invalidVersionFormat
  | _ => .error .invalidVersionFormat

/-- Canonical decimal rendering of a number, as produced by Rust's
`{}` formatting of a `u16`. -/
def natRepr (n : Nat) : List Char := Nat.toDigits 10 n

/-- Model of `Display for Version` (`src/version.rs:36-40`): `"{}.{}.{}"`. -/
def versionToStr (v : Version) : List Char :=
  natRepr v.major ++ '.' :: (natRepr v.minor ++ '.' :: natRepr v.patch)

/-- Derived `PartialOrd` on `Version([u16; 3])` compares the arrays
lexicographically; `a >= b` is the non-`Less` comparison. -/
def versionGe (a b : Version) : Bool :=
  if a.major > b.major then true
  else if a.major < b.major then false
  else if a.minor > b.minor then true
  else if a.minor < b.minor then false
  else a.patch ≥ b.patch

/-- Joining the parts back with dots: inverse direction of `splitOnDot`. -/
def joinDots : List (List Char) → List Char
  | [] => []
  | [p] => p
  | p :: q :: ps => p ++ '.' :: joinDots (q :: ps)

theorem splitOnDot_ne_nil (s : List Char) : splitOnDot s ≠ [] := by
  cases s with
  | nil => simp [splitOnDot]
  | cons c rest =>
    simp only [splitOnDot]
    cases h : splitOnDot rest with
    | nil => simp
    | cons p ps =>
      by_cases hc : c = '.' <;> simp [hc]

theorem joinDots_splitOnDot (s : List Char) : joinDots (splitOnDot s) = s := by
  induction s with
  | nil => simp [splitOnDot, joinDots]
  | cons c rest ih =>
    simp only [splitOnDot]
    cases h : splitOnDot rest with
    | nil => exact absurd h (splitOnDot_ne_nil rest)
    | cons p ps =>
      rw [h] at ih
      by_cases hc : c = '.'
      · subst hc
        cases ps with
        | nil => simpa [joinDots] using ih
        | cons q qs => simpa [joinDots] using ih
      · cases ps with
        | nil => simpa [hc, joinDots] using ih
        | cons q qs => simpa [hc, joinDots] using ih

/-- C6: the claim as stated — formatting reverses parsing on every string
the parser accepts — is false: `"01.0.0"` parses (Rust `u16::from_str`
accepts leading zeros) but renders back as `"1.0.0"`. -/
theorem version_roundtrip_counterexample :
    version_from_str ("01.0.0".data) = .ok ⟨1, 0, 0⟩ ∧
    versionToStr ⟨1, 0, 0⟩ ≠ "01.0.0".data :=
  ⟨rfl, by decide⟩

/-- C6 (amended): for every string the parser accepts in which each
dot-separated part is the canonical decimal rendering of its value (no
leading zeros, no leading plus sign), formatting the parsed `Version`
yields the original string. -/
theorem version_roundtrip_canonical (s : List Char) (v : Version)
    (hp : version_from_str s = .ok v)
    (hc : ∀ p ∈ splitOnDot s, ∃ n, parseU16 p = some n ∧ p = natRepr n) :
    versionToStr v = s := by
  have hj := joinDots_splitOnDot s
  unfold version_from_str at hp
  split at hp
  · next p0 p1 p2 hL =>
    split at hp
    · next a b c h0 h1 h2 =>
      simp only [Except.ok.injEq] at hp
      subst hp
      obtain ⟨n0, hn0, hr0⟩ := hc p0 (by simp [hL])
      obtain ⟨n1, hn1, hr1⟩ := hc p1 (by simp [hL])
      obtain ⟨n2, hn2, hr2⟩ := hc p2 (by simp [hL])
      rw [hn0] at h0; rw [hn1] at h1; rw [hn2] at h2
      cases h0; cases h1; cases h2
      rw [hL] at hj
      simp only [joinDots] at hj
      simpa [versionToStr, ← hr0, ← hr1, ← hr2] using hj
    · simp at hp
  · simp at hp

/-- C6 witness: the amended round trip evaluated at the canonical string
`"1.2.3"`. -/
theorem version_roundtrip_canonical_witness :
    versionToStr ⟨1, 2, 3⟩ = "1.2.3".data := by
  refine version_roundtrip_canonical ("1.2.3".data) ⟨1, 2, 3⟩ rfl ?_
  intro p hp
  have hsp : splitOnDot ("1.2.3".data) = [['1'], ['2'], ['3']] := by decide
  rw [hsp] at hp
  simp only [List.mem_cons, List.not_mem_nil, or_false] at hp
  rcases hp with rfl | rfl | rfl
  · exact ⟨1, by decide, by decide⟩
  · exact ⟨2, by decide, by decide⟩
  · exact ⟨3, by decide, by decide⟩

/-! ## Mod-list composition (`src/instance.rs:534-569`, `build_mod_list_json`)

The pure content of the written `mods/mod-list.json`: a list of
`{name, enabled}` entries.  The file write itself is not modelled; the
entries are produced exactly in source order. -/

structure BaseMods where
  base : Bool
  elevated_rails : Bool
  quality : Bool
  space_age : Bool

structure ModListMod where
  name : String
  enabled : Bool
deriving DecidableEq

/-- The mod entries pushed by `build_mod_list_json`: always `base` enabled;
for `factorio_version >= 2.0.0` the three expansion entries (note the
source enables `space-age` from `base_mods.quality`, `instance.rs:554`);
then every declared mod, enabled. -/
def build_mod_list (factorio_version : Version) (base_mods : BaseMods)
    (mods : List String) : List ModListMod :=
  [⟨"base", true⟩]
    ++ (if versionGe factorio_version ⟨2, 0, 0⟩ then
          [⟨"elevated-rails", base_mods.elevated_rails⟩,
           ⟨"quality", base_mods.quality⟩,
           ⟨"space-age", base_mods.quality⟩]
        else [])
    ++ mods.map (fun n => ⟨n, true⟩)

/-- C2: the claim — the `space-age` entry's enabled value equals
`base_mods.space_age` — is false in the code: with
`BaseMods {base: true, elevated_rails: true, quality: true, space_age: false}`
and version `2.0.0` the composed list carries `space-age` enabled `true`
(the `quality` flag, copied at `instance.rs:554`), although the
`space_age` flag is `false`.  The `base`, `elevated-rails` and `quality`
entries do follow the claim. -/
theorem mod_list_space_age_uses_quality_flag :
    build_mod_list ⟨2, 0, 0⟩ ⟨true, true, true, false⟩ [] =
      [⟨"base", true⟩, ⟨"elevated-rails", true⟩, ⟨"quality", true⟩,
       ⟨"space-age", true⟩] ∧
    (⟨true, true, true, false⟩ : BaseMods).space_age = false :=
  ⟨rfl, rfl⟩

/-! ## `Instance::check_running` (`src/instance.rs:284-305`)

Inputs read from the environment: whether `instance_path` exists, whether
`<instance_path>/factorio.pid` exists, the parse of the pidfile's
contents (`None` models a `ParseIntError`), and the OS process-table
lookup.  Reading an existing pidfile is assumed to succeed. -/

structure CheckRunningEnv where
  instanceDirExists : Bool
  pidFileExists : Bool
  pidFileParse : Option Nat
  pidLive : Nat → Bool

/-- Model of `Instance::check_running`, branch for branch from the source: a
missing instance directory and a missing pidfile both return
`AlreadyRunningError`; only with an existing pidfile naming a dead
process does it return `Ok`. -/
def check_running (env : CheckRunningEnv) : Except ServerError Unit :=
  if !env.instanceDirExists then .error .alreadyRunningError
  else if !env.pidFileExists then .error .alreadyRunningError
  else
    match env.pidFileParse with
    | none => .error .parseIntError
    | some pid =>
      if env.pidLive pid then .error .alreadyRunningError
      else .ok ()

/-- C1: the claim — `check_running` returns `Ok` whenever the instance
directory or the pidfile is missing — is contradicted by the source: both
absence branches return `AlreadyRunningError` (`instance.rs:287-294`).
The live-pid and dead-pid branches do behave as claimed. -/
theorem check_running_absent_path_bug :
    check_running ⟨false, false, none, fun _ => false⟩ =
      .error .alreadyRunningError ∧
    check_running ⟨true, false, none, fun _ => false⟩ =
      .error .alreadyRunningError ∧
    check_running ⟨true, true, some 1, fun _ => true⟩ =
      .error .alreadyRunningError ∧
    check_running ⟨true, true, some 1, fun _ => false⟩ = .ok () :=
  ⟨rfl, rfl, rfl, rfl⟩

/-! ## Cache fetchers (`src/cache.rs`)

The destination path is the only filesystem location the claims reason
about, so the filesystem is modelled as the optional node stored there.
External download outcomes are a parameter: success, failure before the
destination is touched (HTTP request error), or failure after a partial
write. -/

inductive FsNode where
  | dirNode
  | fileNode (complete : Bool)
deriving DecidableEq

/-- Semantics of `std::fs::remove_dir_all` at the destination: succeeds only
on an existing directory; errors `NotFound` on a missing path and
`NotADirectory` on a regular file. -/
def remove_dir_all : Option FsNode → Except ServerError (Option FsNode)
  | some .dirNode => .ok none
  | some (.fileNode _) => .error (.ioError .notADirectory)
  | none => .error (.ioError .notFound)

inductive DlOutcome where
  | dlOk
  | httpError
  | streamError
deriving DecidableEq

/-- The error-mapping wrapper both fetchers put around their download
(`cache.rs:100-107` and `cache.rs:456-463`): on a download error run
`remove_dir_all(&path)`; if the removal itself errs return the removal
error, otherwise the original error. -/
def map_download_err (dest : Option FsNode) (e : ServerError) :
    Option FsNode × Except ServerError Unit :=
  match remove_dir_all dest with
  | .ok dest2 => (dest2, .error e)
  | .error re => (dest, .error re)

/-- Leader branch of `Cache::get_factorio` (`cache.rs:94-112`): the fast
path already found the destination absent; `create_dir_all(&path)` makes
the destination directory, then `download_factorio` runs; its failures
leave the (possibly partially filled) directory in place. -/
def get_factorio_leader (o : DlOutcome) : Option FsNode × Except ServerError Unit :=
  let destCreated : Option FsNode := some .dirNode
  match o with
  | .dlOk => (destCreated, .ok ())
  | .httpError => map_download_err destCreated .reqwestError
  | .streamError => map_download_err destCreated .reqwestError

/-- Leader branch of `Cache::get_mod` (`cache.rs:437-468`): credentials
and the portal lookup are assumed to succeed (their failures never touch
the destination); `download_mod` creates the parent directory, then
`File::create(path)` and streams chunks, so a mid-stream failure leaves a
partial regular file at the destination while an HTTP request error
leaves nothing. -/
def get_mod_leader (o : DlOutcome) : Option FsNode × Except ServerError Unit :=
  match o with
  | .dlOk => (some (.fileNode true), .ok ())
  | .httpError => map_download_err none .reqwestError
  | .streamError => map_download_err (some (.fileNode false)) .reqwestError

/-- C3: the claim — after a failed fetch the destination does not exist —
is contradicted for `get_mod`: on a mid-stream failure the destination is
a partial `.zip` regular file, `remove_dir_all` on it fails with
`NotADirectory`, so the file survives and the removal error replaces the
original one.  For `get_factorio` the destination is a directory and is
indeed removed. -/
theorem get_mod_partly_written_zip_survives :
    get_mod_leader .streamError =
      (some (.fileNode false), .error (.ioError .notADirectory)) ∧
    (get_factorio_leader .streamError).1 = none ∧
    (get_factorio_leader .httpError).1 = none :=
  ⟨rfl, rfl, rfl⟩

/-! ## Single-flight protocol (`Cache::check_inflight`, `cache.rs:377-396`)

One in-flight episode: the calls to `check_inflight(path)` that happen
while the entry inserted by the first of them is still in the map.  Each
call atomically consults the `DashMap` entry: occupied subscribes
(follower), vacant inserts and leads. -/

inductive FlightRole where
  | leaderRole
  | followerRole
deriving DecidableEq

/-- One atomic `check_inflight` call against the current occupancy of the
map entry for the path; returns the occupancy it leaves behind. -/
def check_inflight (occupied : Bool) : Bool × FlightRole :=
  if occupied then (true, .followerRole) else (true, .leaderRole)

/-- Roles handed to `n` sequentially-serialized callers of one episode,
starting from occupancy `occ`. -/
def assignRoles : Nat → Bool → List FlightRole
  | 0, _ => []
  | n + 1, occ =>
    let p := check_inflight occ
    p.2 :: assignRoles n p.1

/-- Network fetches are issued only by leaders (`Either::Right` branch of
the fetchers), so the fetch count of an episode is its leader count. -/
def countLeaders (rs : List FlightRole) : Nat :=
  rs.countP (fun r => r == .leaderRole)

theorem assignRoles_occupied (n : Nat) :
    assignRoles n true = List.replicate n .followerRole := by
  induction n with
  | zero => rfl
  | succ n ih => simp [assignRoles, check_inflight, ih, List.replicate]

/-- What a follower returns (`Either::Left` branch, `cache.rs:86-93` and
`cache.rs:429-436`): `receiver.recv().await?` surfaces a closed channel
as a `RecvError` (`ServerError::TokioRecv`); only after a received
notification does it check existence, succeeding if the destination is
there and failing `InFlightError` otherwise. -/
inductive RecvOutcome where
  | received
  | chanClosed
deriving DecidableEq

def follower_get (recvRes : RecvOutcome) (destExists : Bool) :
    Except ServerError Unit :=
  match recvRes with
  | .chanClosed => .error .tokioRecvError
  | .received => if destExists then .ok () else .error .inFlightError

/-- The leader sends on the notifier exactly when its fetch succeeded
(`sender_guard.sender.send(()).ok()` runs only after the `?` on the
download, `cache.rs:109`); a failed leader drops the guard without
sending, closing the channel. -/
def leaderSent (o : DlOutcome) : Bool :=
  match (get_factorio_leader o).2 with
  | .ok _ => true
  | .error _ => false

/-- Outcome observed by a follower of a `get_factorio` episode whose
leader ran with outcome `o`. -/
def followerOutcome (o : DlOutcome) : Except ServerError Unit :=
  follower_get (if leaderSent o then .received else .chanClosed)
    ((get_factorio_leader o).1.isSome)

def isOkB : Except ServerError Unit → Bool
  | .ok _ => true
  | .error _ => false

/-- C4: the claim — a follower of a failed leader fails with
`InFlightError` — is false: the leader of a failed fetch never sends, the
guard drop closes the broadcast channel, and the follower's
`receiver.recv().await?` surfaces `ServerError::TokioRecv`, a different
error value; the `InFlightError` arm is only reachable after a received
notification. -/
theorem follower_error_kind_counterexample :
    followerOutcome .httpError = .error .tokioRecvError ∧
    (Except.error .tokioRecvError : Except ServerError Unit) ≠
      .error .inFlightError ∧
    (get_factorio_leader .httpError).1 = none :=
  ⟨rfl, by simp, rfl⟩

/-- C4 (amended): within one in-flight episode at most one caller becomes
leader, hence at most one network fetch is issued; every follower
observes the same success/failure outcome as the leader; followers of a
successful leader return `Ok`, and followers of a failed leader fail with
the broadcast receive error (`TokioRecv`), not `InFlightError`. -/
theorem single_flight_amended :
    (∀ n, countLeaders (assignRoles n false) ≤ 1) ∧
    (∀ o, isOkB (followerOutcome o) = isOkB (get_factorio_leader o).2) ∧
    (∀ o, isOkB (get_factorio_leader o).2 = false →
      followerOutcome o = .error .tokioRecvError) := by
  refine ⟨?_, ?_, ?_⟩
  · intro n
    cases n with
    | zero => simp [assignRoles, countLeaders]
    | succ n =>
      simp [assignRoles, check_inflight, countLeaders, assignRoles_occupied,
        List.countP_replicate]
  · intro o; cases o <;> rfl
  · intro o h
    cases o with
    | dlOk => exact absurd h (by simp [get_factorio_leader, isOkB])
    | httpError => rfl
    | streamError => rfl

/-- C4 witness: the amended statement evaluated at a failing leader. -/
theorem single_flight_amended_witness :
    followerOutcome .streamError = .error .tokioRecvError :=
  single_flight_amended.2.2 .streamError rfl

/-! ## Credential persistence (`src/credentials.rs`)

The credentials file either holds the JSON of the two-field
`{username, token}` struct or is absent; serde's round trip of that
struct is assumed faithful, so the file content is modelled directly as
an optional `Credentials`. -/

structure Credentials where
  username : String
  token : String
deriving DecidableEq

/-- Model of `CredentialManager::save` (`credentials.rs:94-103`): with credentials
present, `File::create` + `to_writer` replaces the file; with credentials
absent, `std::fs::remove_file` is called unconditionally, which errors
`NotFound` when the file does not exist.  Returns the file content after
the call. -/
def credentials_save (creds fileContent : Option Credentials) :
    Except ServerError (Option Credentials) :=
  match creds with
  | some c => .ok (some c)
  | none =>
    match fileContent with
    | some _ => .ok none
    | none => .error (.ioError .notFound)

/-- Model of `CredentialManager::load` (`credentials.rs:33-44`): state is the
parsed file when it exists, absent otherwise. -/
def credentials_load (fileContent : Option Credentials) : Option Credentials :=
  fileContent

/-- C7: the claim — `save()` succeeds from every state over every
starting filesystem — is false: in the logged-out state with no
credentials file on disk, `save()` calls `remove_file` on the missing
path and propagates its `NotFound` error. -/
theorem credentials_save_absent_no_file_errors :
    credentials_save none none = .error (.ioError .notFound) :=
  rfl

/-- C7 (amended): whenever the state is present, or the state is absent
but the credentials file exists, `save()` succeeds, `load()` on the
resulting file returns a state equal to the saved one, and after saving
the absent state no credentials file exists. -/
theorem credentials_save_load_roundtrip (creds fileContent : Option Credentials)
    (h : creds.isSome ∨ fileContent.isSome) :
    ∃ fileContent2, credentials_save creds fileContent = .ok fileContent2 ∧
      credentials_load fileContent2 = creds ∧
      (creds = none → fileContent2 = none) := by
  cases creds with
  | some c => exact ⟨some c, rfl, rfl, by simp⟩
  | none =>
    cases fileContent with
    | some d => exact ⟨none, rfl, rfl, by simp⟩
    | none => simp at h
/-- C7 witness: the amended round trip at a present state over an empty
filesystem, and at the absent state over an existing file. -/
theorem credentials_save_load_roundtrip_witness :
    (∃ f2, credentials_save (some ⟨"u", "t"⟩) none = .ok f2 ∧
      credentials_load f2 = some ⟨"u", "t"⟩ ∧
      (some (⟨"u", "t"⟩ : Credentials) = none → f2 = none)) ∧
    (∃ f2, credentials_save none (some ⟨"u", "t"⟩) = .ok f2 ∧
      credentials_load f2 = none ∧ ((none : Option Credentials) = none → f2 = none)) :=
  ⟨credentials_save_load_roundtrip (some ⟨"u", "t"⟩) none (by simp),
   credentials_save_load_roundtrip none (some ⟨"u", "t"⟩) (by simp)⟩

/-! ## Status state machine (`src/instance.rs:27-35`, `367-393`)

The watch channel is created with `Default::default()`, whose
`#[default]` variant is `Stopped`.  The status driver task receives each
tailed log line and applies the three checks of `instance.rs:377-389` in
source order; log lines are character lists. -/

inductive Status where
  | stopped
  | starting
  | running
  | stopping
  | closed
deriving DecidableEq

/-- Rust `Default::default()` for `Status`: the `#[default]` variant. -/
def statusDefault : Status := .stopped

def stoppedSentinel : List Char := "factorio process stopped".data

def inGameSuffix : List Char :=
  "changing state from(CreatingGame) to(InGame)".data

def closedSuffix : List Char :=
  "changing state from(Disconnected) to(Closed)".data

/-- One iteration of the status driver loop (`instance.rs:372-390`):
returns the status stored in the watch channel after the line and whether
the driver exits (`break`).  The sentinel equality check runs first; the
two suffix checks are separate `if`s in source order. -/
def driver_step (st : Status) (line : List Char) : Status × Bool :=
  if line = stoppedSentinel then (.stopped, true)
  else
    let st1 := if inGameSuffix.isSuffixOf line then .running else st
    let st2 := if closedSuffix.isSuffixOf line then .closed else st1
    (st2, false)

/-- A helper fact about the two state-change suffixes: no line can end
with both, since two suffixes of one list are suffix-comparable and
neither of these two is a suffix of the other. -/
theorem suffixes_exclusive (line : List Char)
    (h1 : inGameSuffix.isSuffixOf line = true) :
    closedSuffix.isSuffixOf line = false := by
  by_contra h
  rw [Bool.not_eq_false] at h
  rw [List.isSuffixOf_iff_suffix] at h1 h
  rcases List.suffix_or_suffix_of_suffix h1 h with hs | hs
  · have : inGameSuffix.isSuffixOf closedSuffix = true :=
      List.isSuffixOf_iff_suffix.mpr hs
    exact absurd this (by decide)
  · have : closedSuffix.isSuffixOf inGameSuffix = true :=
      List.isSuffixOf_iff_suffix.mpr hs
    exact absurd this (by decide)

theorem inGameSuffix_ne_sentinel (line : List Char)
    (h : inGameSuffix.isSuffixOf line = true) : line ≠ stoppedSentinel := by
  rintro rfl
  exact absurd h (by decide)

theorem closedSuffix_ne_sentinel (line : List Char)
    (h : closedSuffix.isSuffixOf line = true) : line ≠ stoppedSentinel := by
  rintro rfl
  exact absurd h (by decide)

/-- C8: the watch channel starts at `Stopped`, and the driver performs
exactly the claimed transitions: the sentinel line sets `Stopped` and
exits; a line ending with the CreatingGame→InGame marker sets `Running`;
a line ending with the Disconnected→Closed marker sets `Closed`; every
other line leaves the status unchanged and the driver running. -/
theorem status_driver_transitions :
    statusDefault = .stopped ∧
    (∀ st, driver_step st stoppedSentinel = (.stopped, true)) ∧
    (∀ st line, inGameSuffix.isSuffixOf line = true →
      driver_step st line = (.running, false)) ∧
    (∀ st line, closedSuffix.isSuffixOf line = true →
      driver_step st line = (.closed, false)) ∧
    (∀ st line, line ≠ stoppedSentinel →
      inGameSuffix.isSuffixOf line = false →
      closedSuffix.isSuffixOf line = false →
      driver_step st line = (st, false)) := by
  refine ⟨rfl, fun st => by simp [driver_step], ?_, ?_, ?_⟩
  · intro st line h
    have hne := inGameSuffix_ne_sentinel line h
    have hcl := suffixes_exclusive line h
    simp [driver_step, hne, h, hcl]
  · intro st line h
    have hne := closedSuffix_ne_sentinel line h
    simp [driver_step, hne, h]
  · intro st line hne h1 h2
    simp [driver_step, hne, h1, h2]

/-- C8 witness: the transition table evaluated on concrete lines — the
two state-change markers themselves, the sentinel, and an ordinary log
line. -/
theorem status_driver_transitions_witness :
    driver_step .starting inGameSuffix = (.running, false) ∧
    driver_step .running closedSuffix = (.closed, false) ∧
    driver_step .closed stoppedSentinel = (.stopped, true) ∧
    driver_step .running ("goodbye".data) = (.running, false) :=
  ⟨status_driver_transitions.2.2.1 .starting inGameSuffix (by decide),
   status_driver_transitions.2.2.2.1 .running closedSuffix (by decide),
   status_driver_transitions.2.1 .closed,
   status_driver_transitions.2.2.2.2 .running ("goodbye".data) (by decide)
     (by decide) (by decide)⟩

/-! ## RunningInstance commands (`src/instance.rs:410-521`)

`kill`, `stop` and `send_command` are modelled as functions of the
current value of the status watch channel that return the channel value
after the call, the externally visible actions issued (channel write, OS
kill, RCON command, backup rotation), and the result.  The work that
follows the guard (process reaping, the `Closed` wait, `cleanup`) is
abstracted by a `rest` parameter holding its actions and result, since
the claims only constrain the guard and the first transition. -/

inductive RIAction where
  | setStatus (s : Status)
  | osKill
  | rconCmd (cmd : List Char)
  | rotateBackups
deriving DecidableEq

/-- Model of `RunningInstance::check_status` (`instance.rs:475-486`): reads the
watch channel; any value other than `expected` is `NotAllowed`. -/
def check_status (cur expected : Status) : Except ServerError Unit :=
  if cur = expected then .ok () else .error .notAllowed

/-- Model of `RunningInstance::check_and_set_status` (`instance.rs:488-506`):
reads the watch channel; on mismatch `NotAllowed` with no write, on match
`send_replace(new_status)`.  Returns the channel value after the call. -/
def check_and_set_status (cur expected newStatus : Status) :
    Except ServerError Status :=
  if cur = expected then .ok newStatus else .error .notAllowed

/-- Model of `RunningInstance::kill` (`instance.rs:411-421`): guard
`check_and_set_status(Running, Stopping)`; a guard failure returns before
any kill is sent; otherwise the OS kill is issued and `rest` (reap +
cleanup) runs. -/
def kill_run (cur : Status) (rest : List RIAction × Except ServerError Unit) :
    Status × List RIAction × Except ServerError Unit :=
  match check_and_set_status cur .running .stopping with
  | .error e => (cur, [], .error e)
  | .ok st => (st, RIAction.setStatus .stopping :: RIAction.osKill :: rest.1, rest.2)

/-- Model of `RunningInstance::stop` (`instance.rs:423-447`): guard
`check_and_set_status(Running, Stopping)`; then `/quit` over RCON via
`send_command_internal`, whose failure propagates with the status left at
`Stopping`; on RCON success the `Closed` wait, grace timeout and cleanup
are `rest`. -/
def stop_run (cur : Status) (rconOk : Bool)
    (rest : List RIAction × Except ServerError Unit) :
    Status × List RIAction × Except ServerError Unit :=
  match check_and_set_status cur .running .stopping with
  | .error e => (cur, [], .error e)
  | .ok st =>
    if rconOk then
      (st, RIAction.setStatus .stopping :: RIAction.rconCmd ("/quit".data) :: rest.1,
        rest.2)
    else
      (st, [RIAction.setStatus .stopping, RIAction.rconCmd ("/quit".data)],
        .error .rconError)

/-- Model of `RunningInstance::send_command` (`instance.rs:464-473`): guard
`check_status(Running)`; only then is the RCON connection opened. -/
def send_command_run (cur : Status) (cmd : List Char)
    (rconResult : Except ServerError Unit) :
    List RIAction × Except ServerError Unit :=
  match check_status cur .running with
  | .error e => ([], .error e)
  | .ok _ => ([RIAction.rconCmd cmd], rconResult)

/-- C9: whenever the current status is anything other than `Running`,
`kill`, `stop` and `send_command` all fail `NotAllowed`, with no channel
write and no OS-kill or RCON action issued; when the status is `Running`,
`kill` and `stop` set the channel to `Stopping` before any other
action. -/
theorem running_instance_guards :
    (∀ cur rest, cur ≠ .running →
      kill_run cur rest = (cur, [], .error .notAllowed)) ∧
    (∀ cur rconOk rest, cur ≠ .running →
      stop_run cur rconOk rest = (cur, [], .error .notAllowed)) ∧
    (∀ cur cmd r, cur ≠ .running →
      send_command_run cur cmd r = ([], .error .notAllowed)) ∧
    (∀ rest, (kill_run .running rest).1 = .stopping ∧
      (kill_run .running rest).2.1.head? = some (RIAction.setStatus .stopping)) ∧
    (∀ rconOk rest, (stop_run .running rconOk rest).1 = .stopping ∧
      (stop_run .running rconOk rest).2.1.head? =
        some (RIAction.setStatus .stopping)) := by
  refine ⟨?_, ?_, ?_, ?_, ?_⟩
  · intro cur rest h
    simp [kill_run, check_and_set_status, h]
  · intro cur rconOk rest h
    simp [stop_run, check_and_set_status, h]
  · intro cur cmd r h
    simp [send_command_run, check_status, h]
  · intro rest
    exact ⟨rfl, rfl⟩
  · intro rconOk rest
    cases rconOk <;> exact ⟨rfl, rfl⟩

/-- C9 witness: the guards evaluated at the concrete non-`Running`
statuses `Stopped` and `Stopping`, and the `Running` first-transition at
a concrete `rest`. -/
theorem running_instance_guards_witness :
    kill_run .stopped ([], .ok ()) = (.stopped, [], .error .notAllowed) ∧
    stop_run .stopping true ([], .ok ()) = (.stopping, [], .error .notAllowed) ∧
    send_command_run .closed ("/help".data) (.ok ()) = ([], .error .notAllowed) ∧
    (kill_run .running ([], .ok ())).1 = .stopping :=
  ⟨running_instance_guards.1 .stopped ([], .ok ()) (by decide),
   running_instance_guards.2.1 .stopping true ([], .ok ()) (by decide),
   running_instance_guards.2.2.1 .closed ("/help".data) (.ok ()) (by decide),
   (running_instance_guards.2.2.2.1 ([], .ok ())).1⟩

/-- C10: when `stop()` passes its guard but the RCON `/quit` fails, the
channel was already set to `Stopping` and the error propagates without
reverting it; every subsequent `kill`, `stop` or `send_command` against
the resulting status therefore fails `NotAllowed`, since each requires
exactly `Running`. -/
theorem stop_failure_strands_stopping :
    ∀ rest rest2 rconOk2 cmd r,
      (stop_run .running false rest).2.2 = .error .rconError ∧
      (stop_run .running false rest).1 = .stopping ∧
      kill_run (stop_run .running false rest).1 rest2 =
        ((stop_run .running false rest).1, [], .error .notAllowed) ∧
      stop_run (stop_run .running false rest).1 rconOk2 rest2 =
        ((stop_run .running false rest).1, [], .error .notAllowed) ∧
      send_command_run (stop_run .running false rest).1 cmd r =
        ([], .error .notAllowed) := by
  intro rest rest2 rconOk2 cmd r
  refine ⟨rfl, rfl, ?_, ?_, ?_⟩
  · simp [stop_run, kill_run, check_and_set_status]
  · simp [stop_run, check_and_set_status]
  · simp [stop_run, send_command_run, check_status, check_and_set_status]

/-! ## Generation rotation (`src/data.rs:47-86`)

The per-instance file area is modelled as the base file plus the map from
generation index `k` to the content of `file.k`; contents are strings,
with the empty string standing for a zero-size file.  `rotate_file` is
the recursion of `data.rs:47-64`: at index `num`, a missing `file.num`
stops the walk; at `num == end` the file is deleted; otherwise the walk
first rotates from `num + 1` and then renames `file.num` to
`file.(num+1)`.  The recursion is expressed structurally on the fuel
`d = end - num`, which the source's call sites keep non-negative. -/

def rotate_file_go (e : Nat) : Nat → (Nat → Option String) → Nat → Option String
  | 0, g =>
    match g e with
    | none => g
    | some _ => fun k => if k = e then none else g k
  | d + 1, g =>
    match g (e - (d + 1)) with
    | none => g
    | some _ =>
      let g2 := rotate_file_go e d g
      fun k =>
        if k = (e - (d + 1)) + 1 then g2 (e - (d + 1))
        else if k = e - (d + 1) then none
        else g2 k

/-- Model of `Data::rotate_file(file, num, end)` for `num ≤ end`. -/
def rotate_file (g : Nat → Option String) (num e : Nat) : Nat → Option String :=
  rotate_file_go e (e - num) g

structure RotState where
  baseFile : Option String
  gen : Nat → Option String

/-- Model of `Data::get_and_rotate_file` (`data.rs:66-86`) with the subdir already
ensured: if the base file exists and is non-empty, rotate the generations
with `rotate_file(file, 0, amount)` and rename the base file to
`file.0`. -/
def get_and_rotate_file (fs : RotState) (amount : Nat) : RotState :=
  match fs.baseFile with
  | none => fs
  | some s =>
    if s = "" then fs
    else
      { baseFile := none,
        gen := fun k => if k = 0 then some s else rotate_file fs.gen 0 amount k }

/-- If the generations have no gaps (a missing `file.k` implies a missing
`file.(k+1)`), a missing `file.j` makes everything from `j` upward
missing. -/
theorem gen_none_of_le (g : Nat → Option String)
    (hcont : ∀ k, g k = none → g (k + 1) = none) {j k : Nat}
    (hj : g j = none) (hk : j ≤ k) : g k = none := by
  induction k with
  | zero => cases Nat.le_zero.mp hk; exact hj
  | succ k ih =>
    rcases Nat.lt_or_ge j (k + 1) with h | h
    · exact hcont k (ih (Nat.lt_succ_iff.mp h))
    · cases Nat.le_antisymm hk h; exact hj

/-- Full characterization of `rotate_file_go` on gap-free generations:
indices below `end - d` are untouched, index `end - d` is freed, indices
up to `end` hold their predecessor's previous content, indices above
`end` are untouched. -/
theorem rotate_file_go_spec (g : Nat → Option String)
    (hcont : ∀ k, g k = none → g (k + 1) = none) (N : Nat) :
    ∀ d, d ≤ N → ∀ k, rotate_file_go N d g k =
      if k < N - d then g k
      else if k = N - d then none
      else if k ≤ N then g (k - 1)
      else g k := by
  intro d
  induction d with
  | zero =>
    intro _ k
    simp only [Nat.sub_zero]
    cases hg : g N with
    | none =>
      simp only [rotate_file_go, hg]
      rcases Nat.lt_trichotomy k N with h | h | h
      · rw [if_pos h]
      · rw [if_neg (by omega : ¬ k < N), if_pos h, h, hg]
      · have h1 : ¬ k < N := by omega
        have h2 : k ≠ N := by omega
        have h3 : ¬ k ≤ N := by omega
        rw [if_neg h1, if_neg h2, if_neg h3]
    | some v =>
      simp only [rotate_file_go, hg]
      rcases Nat.lt_trichotomy k N with h | h | h
      · rw [if_neg (by omega : k ≠ N), if_pos h]
      · rw [if_pos h, if_neg (by omega : ¬ k < N), if_pos h]
      · have h2 : k ≠ N := by omega
        rw [if_neg h2, if_neg (by omega : ¬ k < N), if_neg h2,
          if_neg (by omega : ¬ k ≤ N)]
  | succ d ih =>
    intro hd k
    have hnum : N - (d + 1) + 1 = N - d := by omega
    cases hg : g (N - (d + 1)) with
    | none =>
      simp only [rotate_file_go, hg]
      have hall : ∀ j, N - (d + 1) ≤ j → g j = none := fun j hj =>
        gen_none_of_le g hcont hg hj
      rcases Nat.lt_trichotomy k (N - (d + 1)) with h | h | h
      · rw [if_pos h]
      · rw [if_neg (by omega : ¬ k < N - (d + 1)), if_pos h, h, hg]
      · have h1 : ¬ k < N - (d + 1) := by omega
        have h2 : k ≠ N - (d + 1) := by omega
        by_cases h3 : k ≤ N
        · rw [if_neg h1, if_neg h2, if_pos h3, hall k (by omega),
            hall (k - 1) (by omega)]
        · rw [if_neg h1, if_neg h2, if_neg h3]
    | some v =>
      simp only [rotate_file_go, hg]
      have ihs := ih (by omega)
      rcases Nat.lt_trichotomy k (N - (d + 1)) with h | h | h
      · rw [if_neg (by omega : ¬ k = N - (d + 1) + 1),
          if_neg (by omega : ¬ k = N - (d + 1)), ihs k,
          if_pos (by omega : k < N - d), if_pos h]
      · rw [if_neg (by omega : ¬ k = N - (d + 1) + 1), if_pos h,
          if_neg (by omega : ¬ k < N - (d + 1)), if_pos h]
      · by_cases hk1 : k = N - (d + 1) + 1
        · rw [if_pos hk1, ihs (N - (d + 1)),
            if_pos (by omega : N - (d + 1) < N - d),
            if_neg (by omega : ¬ k < N - (d + 1)),
            if_neg (by omega : ¬ k = N - (d + 1)),
            if_pos (by omega : k ≤ N)]
          congr 1
          omega
        · rw [if_neg hk1, if_neg (by omega : ¬ k = N - (d + 1)), ihs k,
            if_neg (by omega : ¬ k < N - d), if_neg (by omega : ¬ k = N - d),
            if_neg (by omega : ¬ k < N - (d + 1)),
            if_neg (by omega : ¬ k = N - (d + 1))]

/-- A starting state with a gap: the base file is non-empty, `file.0` and
`file.1` are absent, `file.2` exists. -/
def rotGapState : RotState where
  baseFile := some "a"
  gen := fun k => if k = 2 then some "x" else none

/-- C5: the claim — after rotation with amount `N` no file at index
greater than `N` survives (and every `file.k` holds what `file.(k-1)`
held) — is false as stated: the recursion of `rotate_file` stops at the
first missing generation and never touches higher indices, so rotating
`rotGapState` with `N = 1` leaves `file.2` intact with its old
content. -/
theorem rotation_gap_counterexample :
    rotGapState.baseFile = some "a" ∧ ("a" : String) ≠ "" ∧
    (get_and_rotate_file rotGapState 1).gen 2 = some "x" :=
  ⟨rfl, by decide, rfl⟩

/-- C5 (amended): on a non-empty base file, provided the existing
generations are gap-free and no generation above index `N` exists, the
call removes the base file, moves its content to `file.0`, shifts every
`file.k` for `0 < k ≤ N` to its predecessor's previous content (deleting
the old `file.N`), and leaves nothing above index `N`. -/
theorem rotation_amended (fs : RotState) (N : Nat) (s : String)
    (hbase : fs.baseFile = some s) (hs : ¬ s = "")
    (hcont : ∀ k, fs.gen k = none → fs.gen (k + 1) = none)
    (hbound : ∀ k, N < k → fs.gen k = none) :
    (get_and_rotate_file fs N).baseFile = none ∧
    (get_and_rotate_file fs N).gen 0 = some s ∧
    (∀ k, 0 < k → k ≤ N → (get_and_rotate_file fs N).gen k = fs.gen (k - 1)) ∧
    (∀ k, N < k → (get_and_rotate_file fs N).gen k = none) := by
  have hrot := rotate_file_go_spec fs.gen hcont N N (Nat.le_refl N)
  simp only [get_and_rotate_file, hbase, if_neg hs]
  refine ⟨by trivial, by simp, ?_, ?_⟩
  · intro k hk0 hkN
    simp only [if_neg (by omega : ¬ k = 0)]
    rw [rotate_file, Nat.sub_zero, hrot k,
      if_neg (by omega : ¬ k < N - N), if_neg (by omega : ¬ k = N - N),
      if_pos hkN]
  · intro k hkN
    simp only [if_neg (by omega : ¬ k = 0)]
    rw [rotate_file, Nat.sub_zero, hrot k,
      if_neg (by omega : ¬ k < N - N), if_neg (by omega : ¬ k = N - N),
      if_neg (by omega : ¬ k ≤ N)]
    exact hbound k hkN

/-- A gap-free starting state: non-empty base file, `file.0` present,
nothing above. -/
def rotWitnessState : RotState where
  baseFile := some "a"
  gen := fun k => if k = 0 then some "b" else none

/-- C5 witness: the amended rotation at `rotWitnessState` with amount 1 —
`file.1` receives the old content of `file.0`. -/
theorem rotation_amended_witness :
    (get_and_rotate_file rotWitnessState 1).gen 1 = some "b" := by
  have h := (rotation_amended rotWitnessState 1 "a" rfl (by decide)
    (fun k hk => by simp [rotWitnessState])
    (fun k hk => by simp only [rotWitnessState]; rw [if_neg (by omega : ¬ k = 0)])).2.2.1
    1 (by decide) (by decide)
  rw [h]
  rfl

end FactorioServer
